import Mathlib

/-!
Verification development for the `LLM_HospitalDB_Filler` repository, RAG component
(`src/RAG_Part/RagAPP.py` and `src/RAG_Part/api.py`).

Shallow embedding conventions:
* Python strings are `String` (lists of Unicode code points); `str.lower` is modelled
  on the ASCII range (`lowerCh`), which covers every literal the code compares against.
* Python floats are modelled by `PFloat`: NaN, the two infinities, and finite values
  carried as exact rationals constrained to the double range `(-2^1024, 2^1024)`.
  Decimal-to-float conversion is modelled exactly (no rounding); the overflow
  threshold is idealised to `2^1024`.
* Python exceptions are `Except` values (`PyErr` for ValueError/TypeError/OverflowError).
* The FAISS vector store and the Groq LLM are external collaborators; they are
  modelled as function-valued parameters (`VectorStore`, `String → String`), and the
  two fuzzywuzzy similarity primitives as rational-valued oracles `ts pr`.
-/

set_option maxRecDepth 4000

deriving instance DecidableEq for Except

namespace HospRAG

/-! ### Basic character and string helpers (ASCII model of Python `str` methods) -/

/-- ASCII whitespace recognised by Python `str.strip` / `str.split` (model):
space, tab, newline, carriage return, vertical tab, form feed. -/
def isWsC (c : Char) : Bool :=
  c.toNat = 32 || c.toNat = 9 || c.toNat = 10 || c.toNat = 13 || c.toNat = 11 || c.toNat = 12

/-- Decimal digit test. -/
def isDigitC (c : Char) : Bool := 48 ≤ c.toNat && c.toNat ≤ 57

/-- Numeric value of a digit character. -/
def dval (c : Char) : Nat := c.toNat - 48

/-- Digit character for a value below 10. -/
def digCh (d : Nat) : Char := Char.ofNat (48 + d)

/-- ASCII lower-casing, modelling Python `str.lower` on the ASCII range. -/
def lowerCh (c : Char) : Char :=
  if 65 ≤ c.toNat ∧ c.toNat ≤ 90 then Char.ofNat (c.toNat + 32) else c

/-- Lower-case an entire string. -/
def strLower (s : String) : String := ⟨s.data.map lowerCh⟩

/-- Length of a string in code points (Python `len`). -/
def strLen (s : String) : Nat := s.data.length

/-- Python slicing `s[:n]` for a nonnegative bound. -/
def strTake (n : Nat) (s : String) : String := ⟨s.data.take n⟩

/-- Python substring containment `needle in hay`. -/
def containsStr (needle hay : String) : Bool := decide (needle.data <:+: hay.data)

/-- Strip leading and trailing ASCII whitespace (Python `str.strip()` model). -/
def trimWs (l : List Char) : List Char :=
  ((l.dropWhile isWsC).reverse.dropWhile isWsC).reverse

/-- Decimal digits of a natural number, most significant first (fuel-based so
that the kernel can evaluate it; `fuel = n` always suffices). -/
def natToDigitsAux : Nat → Nat → List Char
  | 0, n => [digCh n]
  | fuel + 1, n => if n < 10 then [digCh n] else natToDigitsAux fuel (n / 10) ++ [digCh (n % 10)]

/-- Decimal digits of a natural number, most significant first. -/
def natToDigits (n : Nat) : List Char := natToDigitsAux n n

/-- Python `str` of an integer: standard decimal form. -/
def intStr (n : ℤ) : String :=
  if n < 0 then ⟨'-' :: natToDigits n.natAbs⟩ else ⟨natToDigits n.natAbs⟩

/-! ### Python float model

`PFloat` models CPython floats for the purposes of `normalize_id`: finite values are
exact rationals bounded by the double-range limit `qBig = 2^1024` (round-to-float
is idealised to the identity on in-range decimals). -/

/-- Upper bound of the double range, `2^1024`, as a rational. -/
def qBig : ℚ := ((2 ^ 1024 : ℕ) : ℚ)

/-- Model of a CPython float value. -/
inductive PFloat where
  | nan : PFloat
  | inf : PFloat
  | neginf : PFloat
  | fin (q : ℚ) (h1 : q < qBig) (h2 : -qBig < q) : PFloat

/-- Classify a rational as a finite float or an overflow to an infinity. -/
def mkFin (q : ℚ) : PFloat :=
  if h1 : q < qBig then
    if h2 : -qBig < q then .fin q h1 h2 else .neginf
  else .inf

/-- Python exception kinds relevant to `normalize_id`. -/
inductive PyErr where
  | valueError : PyErr
  | typeError : PyErr
  | overflowError : PyErr
deriving DecidableEq

/-- Model of the Python values `normalize_id` is applied to: `None`/NA, ints,
floats, and strings. -/
inductive PyVal where
  | na : PyVal
  | int (n : ℤ) : PyVal
  | float (f : PFloat) : PyVal
  | str (s : String) : PyVal

/-- Model of `pandas.isna`: true exactly for `None` and float NaN. -/
def pyIsNa : PyVal → Bool
  | .na => true
  | .float .nan => true
  | _ => false

/-! Parsing a string as a Python float (`float(s)`), ASCII grammar:
optional surrounding whitespace, optional sign, then `inf`/`infinity`/`nan`
(case-insensitive) or a decimal number `digits [. digits] [e [sign] digits]`
with underscores permitted between digits. -/

/-- Consume a run of decimal digits with embedded underscores; returns the
accumulated value, the count of digits consumed, and the rest. -/
def digRunAux : List Char → Nat → Nat → Nat × Nat × List Char
  | [], acc, cnt => (acc, cnt, [])
  | c :: cs, acc, cnt =>
    if isDigitC c then digRunAux cs (acc * 10 + dval c) (cnt + 1)
    else if c = '_' then
      match cs with
      | d :: ds => if isDigitC d then digRunAux ds (acc * 10 + dval d) (cnt + 1)
                   else (acc, cnt, c :: cs)
      | [] => (acc, cnt, c :: cs)
    else (acc, cnt, c :: cs)

/-- A digit run must begin with a digit (no leading underscore). -/
def digRun (l : List Char) : Option (Nat × Nat × List Char) :=
  match l with
  | [] => none
  | c :: _ => if isDigitC c then some (digRunAux l 0 0) else none

/-- Parse the mantissa `digits [. digits]` or `. digits`; returns the exact value
and the rest of the input. -/
def parseNumber (l : List Char) : Option (ℚ × List Char) :=
  match digRun l with
  | some (ip, _, r1) =>
    match r1 with
    | '.' :: r2 =>
      match digRun r2 with
      | some (fp, fc, r3) => some ((ip : ℚ) + (fp : ℚ) / (10 : ℚ) ^ fc, r3)
      | none => some ((ip : ℚ), r2)
    | _ => some ((ip : ℚ), r1)
  | none =>
    match l with
    | '.' :: r2 =>
      match digRun r2 with
      | some (fp, fc, r3) => some ((fp : ℚ) / (10 : ℚ) ^ fc, r3)
      | none => none
    | _ => none

/-- Parse an optionally signed digit run (the exponent part). -/
def parseSignedDigits (l : List Char) : Option (ℤ × List Char) :=
  match l with
  | '+' :: r => (digRun r).map (fun x => ((x.1 : ℤ), x.2.2))
  | '-' :: r => (digRun r).map (fun x => (-(x.1 : ℤ), x.2.2))
  | _ => (digRun l).map (fun x => ((x.1 : ℤ), x.2.2))

/-- Exact power of ten with integer exponent. -/
def qpow10 (e : ℤ) : ℚ :=
  if 0 ≤ e then (10 : ℚ) ^ e.toNat else 1 / (10 : ℚ) ^ (-e).toNat

/-- Parse mantissa and optional exponent; the whole input must be consumed. -/
def parseMantExp (l : List Char) : Option ℚ :=
  match parseNumber l with
  | none => none
  | some (m, r) =>
    match r with
    | [] => some m
    | 'e' :: r2 =>
      match parseSignedDigits r2 with
      | some (ex, r3) => if r3 = [] then some (m * qpow10 ex) else none
      | none => none
    | _ => none

/-- Split an optional leading sign; returns (isNegative, rest). -/
def splitSign (l : List Char) : Bool × List Char :=
  match l with
  | [] => (false, [])
  | c :: r => if c = '-' then (true, r) else if c = '+' then (false, r) else (false, l)

/-- The character lists for the special float spellings. -/
def infL : List Char := ['i', 'n', 'f']
def infinityL : List Char := ['i', 'n', 'f', 'i', 'n', 'i', 't', 'y']
def nanL : List Char := ['n', 'a', 'n']

/-- Body of float parsing after lower-casing, trimming and sign splitting:
`neg` is the sign, `l2` the remaining characters. -/
def pyFloatBody (neg : Bool) (l2 : List Char) : Option PFloat :=
  if l2 = infinityL ∨ l2 = infL then some (if neg then .neginf else .inf)
  else if l2 = nanL then some .nan
  else
    match parseMantExp l2 with
    | some q => some (mkFin (if neg then -q else q))
    | none => none

/-- Float parsing on a lower-cased, trimmed character list. -/
def pyFloatCore (l : List Char) : Option PFloat :=
  pyFloatBody (splitSign l).1 (splitSign l).2

/-- Model of CPython `float(s)` on the ASCII grammar: `none` means ValueError. -/
def pyFloatOfString (s : String) : Option PFloat :=
  pyFloatCore (trimWs (s.data.map lowerCh))

/-- Model of CPython `float(value)` for the values `normalize_id` receives. -/
def pyFloatOf : PyVal → Except PyErr PFloat
  | .na => .error .typeError
  | .int n =>
    if h1 : ((n : ℚ)) < qBig then
      if h2 : -qBig < ((n : ℚ)) then .ok (.fin n h1 h2) else .error .overflowError
    else .error .overflowError
  | .float f => .ok f
  | .str s =>
    match pyFloatOfString s with
    | some f => .ok f
    | none => .error .valueError

/-- Truncation of a rational toward zero, modelling CPython `int(float)`. -/
def truncQ (q : ℚ) : ℤ := if 0 ≤ q then Int.floor q else Int.ceil q

/-- Model of CPython `int(f)` on a float: ValueError on NaN, OverflowError on the
infinities, truncation toward zero otherwise. -/
def pyIntOfFloat : PFloat → Except PyErr ℤ
  | .nan => .error .valueError
  | .inf => .error .overflowError
  | .neginf => .error .overflowError
  | .fin q _ _ => .ok (truncQ q)

/-- Decimal rendering of a finite float value; only reachable from `normalize_id`
through the exception branch, which finite floats never take. -/
def pyStrFloat : PFloat → String
  | .nan => "nan"
  | .inf => "inf"
  | .neginf => "-inf"
  | .fin q _ _ => intStr q.num

/-- Model of Python `str(value)`. -/
def pyStr : PyVal → String
  | .na => "None"
  | .int n => intStr n
  | .float f => pyStrFloat f
  | .str s => s

/-- The `try:` body of `normalize_id`:
`if pd.isna(value): return "0"` then `return str(int(float(value)))`. -/
def tryBody (v : PyVal) : Except PyErr String :=
  if pyIsNa v then .ok "0"
  else
    match pyFloatOf v with
    | .error e => .error e
    | .ok f =>
      match pyIntOfFloat f with
      | .error e => .error e
      | .ok n => .ok (intStr n)

/-- Model of `normalize_id` (`RagAPP.py` lines 43-50 and identically `api.py`
lines 44-51): the body above wrapped in `except (ValueError, TypeError):
return str(value)`; any other exception (OverflowError) propagates. -/
def normalize_id (v : PyVal) : Except PyErr String :=
  match tryBody v with
  | .ok s => .ok s
  | .error .valueError => .ok (pyStr v)
  | .error .typeError => .ok (pyStr v)
  | .error .overflowError => .error .overflowError

/-! ### Regex model for `detect_query_actor`

Every pattern in the source has the shape `word\s*(\d+)` or `word1\s+word2\s*(\d+)`
with the capture group `(\d+)` terminal. Since `\s` and `\d` are disjoint character
classes, greedy matching without backtracking is equivalent to Python `re` semantics
for these patterns. `re.search` scans for the leftmost matching start position. -/

/-- Tokens of the source's regular expressions: literal text, `\s*`, `\s+`, and the
terminal capture group `(\d+)`. -/
inductive RTok where
  | lit (cs : List Char) : RTok
  | ws0 : RTok
  | ws1 : RTok
  | digits : RTok

/-- Match a token list at the start of the input; returns the digits captured by
the terminal `(\d+)` group on success. -/
def matchToks : List RTok → List Char → Option (List Char)
  | [], _ => none
  | .digits :: _, s =>
    let ds := s.takeWhile isDigitC
    if ds.isEmpty then none else some ds
  | .lit cs :: ts, s => if cs.isPrefixOf s then matchToks ts (s.drop cs.length) else none
  | .ws0 :: ts, s => matchToks ts (s.dropWhile isWsC)
  | .ws1 :: ts, s =>
    match s with
    | [] => none
    | c :: r => if isWsC c then matchToks ts (r.dropWhile isWsC) else none

/-- Model of `re.search`: try to match at each position, leftmost first. -/
def reSearch (p : List RTok) : List Char → Option (List Char)
  | [] => matchToks p []
  | c :: r =>
    match matchToks p (c :: r) with
    | some ds => some ds
    | none => reSearch p r

/-- Try a list of patterns in order, returning the first search hit
(the `for pattern in patterns: if match: return` loops of the source). -/
def firstMatch (ps : List (List RTok)) (s : List Char) : Option (List Char) :=
  match ps with
  | [] => none
  | p :: rest =>
    match reSearch p s with
    | some ds => some ds
    | none => firstMatch rest s

/-- Pattern `word\s*(\d+)`. -/
def pat1 (w : String) : List RTok := [.lit w.data, .ws0, .digits]

/-- Pattern `word1\s+word2\s*(\d+)`. -/
def pat2 (w1 w2 : String) : List RTok := [.lit w1.data, .ws1, .lit w2.data, .ws0, .digits]

/-- Patient patterns of `RagAPP.py` (lines 83-87). -/
def patient_patternsR : List (List RTok) :=
  [pat1 "patient", pat2 "patient" "id", pat2 "patient" "number"]

/-- Provider patterns of `RagAPP.py` (lines 90-95). -/
def provider_patternsR : List (List RTok) :=
  [pat1 "provider", pat2 "provider" "id", pat1 "doctor", pat1 "physician"]

/-- Organization patterns of `RagAPP.py` (lines 98-103). -/
def org_patternsR : List (List RTok) :=
  [pat1 "organization", pat1 "org", pat1 "hospital", pat1 "facility"]

/-- Payer patterns of `RagAPP.py` (lines 106-109). -/
def payer_patternsR : List (List RTok) := [pat1 "payer", pat1 "insurance"]

/-- Patient patterns of `api.py` (line 84). -/
def patient_patternsA : List (List RTok) := [pat1 "patient", pat2 "patient" "id"]

/-- Provider patterns of `api.py` (line 85). -/
def provider_patternsA : List (List RTok) := [pat1 "provider", pat1 "doctor", pat1 "physician"]

/-- Organization patterns of `api.py` (line 86). -/
def org_patternsA : List (List RTok) := [pat1 "organization", pat1 "org", pat1 "hospital"]

/-- Payer patterns of `api.py` (line 87). -/
def payer_patternsA : List (List RTok) := [pat1 "payer", pat1 "insurance"]

/-- Result of an id-bearing pattern hit: the actor type together with the
normalized captured id (`normalize_id(match.group(1))`, which propagates any
uncaught exception). -/
def actorHit (ty : String) (ds : List Char) : Except PyErr (Option String × Option String) :=
  (normalize_id (.str ⟨ds⟩)).map (fun i => (some ty, some i))

/-- Model of `detect_query_actor` from `RagAPP.py` (lines 78-142): id-bearing
patterns in priority order patient, provider, organization, payer, then bare
keyword containment fallbacks, else `(None, None)`. -/
def detect_query_actorR (q : String) : Except PyErr (Option String × Option String) :=
  let ql := strLower q
  let l := ql.data
  match firstMatch patient_patternsR l with
  | some ds => actorHit "patient" ds
  | none =>
  match firstMatch provider_patternsR l with
  | some ds => actorHit "provider" ds
  | none =>
  match firstMatch org_patternsR l with
  | some ds => actorHit "organization" ds
  | none =>
  match firstMatch payer_patternsR l with
  | some ds => actorHit "payer" ds
  | none =>
  if containsStr "patient" ql then .ok (some "patient", none)
  else if containsStr "doctor" ql || containsStr "physician" ql ||
      containsStr "provider" ql || containsStr "dr." ql then .ok (some "provider", none)
  else if containsStr "hospital" ql || containsStr "organization" ql ||
      containsStr "facility" ql || containsStr "clinic" ql then .ok (some "organization", none)
  else if containsStr "insurance" ql || containsStr "payer" ql ||
      containsStr "coverage" ql then .ok (some "payer", none)
  else .ok (none, none)

/-- Model of `detect_query_actor` from `api.py` (lines 79-106): same structure,
with a smaller pattern dictionary and smaller keyword fallback lists. -/
def detect_query_actorA (q : String) : Except PyErr (Option String × Option String) :=
  let ql := strLower q
  let l := ql.data
  match firstMatch patient_patternsA l with
  | some ds => actorHit "patient" ds
  | none =>
  match firstMatch provider_patternsA l with
  | some ds => actorHit "provider" ds
  | none =>
  match firstMatch org_patternsA l with
  | some ds => actorHit "organization" ds
  | none =>
  match firstMatch payer_patternsA l with
  | some ds => actorHit "payer" ds
  | none =>
  if containsStr "patient" ql then .ok (some "patient", none)
  else if containsStr "doctor" ql || containsStr "physician" ql ||
      containsStr "provider" ql then .ok (some "provider", none)
  else if containsStr "hospital" ql || containsStr "organization" ql ||
      containsStr "facility" ql then .ok (some "organization", none)
  else if containsStr "insurance" ql || containsStr "payer" ql then .ok (some "payer", none)
  else .ok (none, none)

/-! ### Query expansion and fuzzy scoring -/

/-- The synonym dictionary of `expand_query` (`RagAPP.py` lines 54-63, identical
in `api.py`), in source (insertion) order. -/
def expansions : List (String × List String) := [
  ("medication", ["medication", "drug", "prescription", "medicine", "pharmaceutical"]),
  ("observation", ["observation", "test", "measurement", "result", "reading", "lab"]),
  ("procedure", ["procedure", "surgery", "operation", "treatment", "intervention"]),
  ("diagnosis", ["diagnosis", "condition", "disease", "disorder", "illness"]),
  ("event", ["event", "encounter", "visit", "record", "entry"]),
  ("doctor", ["doctor", "physician", "provider", "clinician", "dr"]),
  ("hospital", ["hospital", "organization", "facility", "clinic", "center"]),
  ("insurance", ["insurance", "payer", "coverage", "insurer"])]

/-- Model of `expand_query`: collect the synonym lists of all trigger words found
in the lower-cased query, dedupe, append. Python iterates `list(set(terms))`,
whose order is unspecified at the language level; it is modelled as
first-occurrence order (`List.eraseDups`). -/
def expand_query (q : String) : String :=
  let ql := strLower q
  let expanded_terms :=
    expansions.foldl (fun acc kv => if containsStr kv.1 ql then acc ++ kv.2 else acc) []
  if expanded_terms.isEmpty then q
  else q ++ " " ++ String.intercalate " " expanded_terms.eraseDups

/-- Model of `fuzzy_match_score` (`RagAPP.py` lines 144-153, `api.py` 108-113).
The fuzzywuzzy primitives `fuzz.token_set_ratio` and `fuzz.partial_ratio` are
external library calls, modelled as the rational-valued oracles `ts` and `pr`;
the float weights 0.7/0.3 are modelled as the exact rationals 7/10 and 3/10. -/
def fuzzy_match_score (ts pr : String → String → ℚ) (query text : String) (threshold : ℚ) : ℚ :=
  let token_set_score := ts (strLower query) (strLower text)
  let pscore := pr (strLower query) (strLower text)
  let combined_score := token_set_score * (7 / 10) + pscore * (3 / 10)
  if threshold ≤ combined_score then combined_score else 0

/-- Python `str.split()` with no separator: split on whitespace runs, no empties. -/
def splitWsGo : List Char → List Char → List String
  | [], cur => if cur.isEmpty then [] else [⟨cur.reverse⟩]
  | c :: r, cur =>
    if isWsC c then
      if cur.isEmpty then splitWsGo r [] else ⟨cur.reverse⟩ :: splitWsGo r []
    else splitWsGo r (c :: cur)

/-- Python `s.split()`. -/
def pySplitWs (s : String) : List String := splitWsGo s.data []

/-! ### The Document model and the vector store boundary -/

/-- A LangChain `Document`: immutable page content plus string metadata. -/
structure Doc where
  content : String
  metadata : List (String × String)
deriving DecidableEq

/-- The FAISS vector store boundary, modelled as two function-valued fields:
`similarity_search(query, k, filter)` and
`max_marginal_relevance_search(query, k, fetch_k, filter)`. An empty filter list
models the absent `filter` argument. `Except.error` models a raised exception. -/
structure VectorStore where
  similarity_search : String → Nat → List (String × String) → Except String (List Doc)
  max_marginal_relevance_search : String → Nat → Nat → List (String × String) → Except String (List Doc)

/-- Python `metadata.get(k)`: first binding of the key, if any. -/
def mget (m : List (String × String)) (k : String) : Option String :=
  (m.find? (fun p => p.1 == k)).map (fun p => p.2)

/-- Test `doc.metadata.get("type") == "event"`. -/
def isEventDoc (d : Doc) : Bool := mget d.metadata "type" == some "event"

/-- Python truthiness of the optional actor fields: `None` and `""` are falsy. -/
def truthyOpt : Option String → Bool
  | none => false
  | some s => s != ""

/-- The guard `if self.actor_type and self.actor_id` of every scoped strategy. -/
def actorScoped (aty ai : Option String) : Bool := truthyOpt aty && truthyOpt ai

/-- The metadata filter key `f"{self.actor_type}_id"`. -/
def filterKey (aty : Option String) : String := aty.getD "" ++ "_id"

/-- The filter value `str(self.actor_id)`. -/
def aidStr (ai : Option String) : String := ai.getD ""

/-! ### The deduplicating accumulator of `get_relevant_documents`

`all_docs` and `seen_content` of the source; `seen_content` is a set of content
hashes in Python, modelled as the list of seen content strings (`hash` collisions
between distinct contents are disregarded). -/

/-- Accumulator state: collected documents and seen contents. -/
abbrev RState := List Doc × List String

/-- Add one document unless its content was already seen. -/
def addDoc (st : RState) (d : Doc) : RState :=
  if d.content ∈ st.2 then st else (st.1 ++ [d], st.2 ++ [d.content])

/-- Add each document of a strategy result in order, deduplicating. -/
def addAll (st : RState) (ds : List Doc) : RState := ds.foldl addDoc st

/-- A strategy body wrapped in `try/except`: an exception contributes nothing. -/
def tryAdd (st : RState) (r : Except String (List Doc)) : RState :=
  match r with
  | .ok ds => addAll st ds
  | .error _ => st

/-- Invariant of the accumulator: the seen set is exactly the list of collected
contents, and it has no duplicates. -/
def invSt (st : RState) : Prop := st.2 = st.1.map Doc.content ∧ st.2.Nodup

/-! ### Stable descending sort by score (Python `list.sort(key=..., reverse=True)`) -/

/-- Insert an element (earlier in the original list) into a sorted-descending
list, before any element of equal score (stability of Python sort). -/
def insDesc {α : Type} (x : α × ℚ) : List (α × ℚ) → List (α × ℚ)
  | [] => [x]
  | y :: ys => if y.2 ≤ x.2 then x :: y :: ys else y :: insDesc x ys

/-- Stable insertion sort, descending by score. -/
def sortDesc {α : Type} : List (α × ℚ) → List (α × ℚ)
  | [] => []
  | x :: xs => insDesc x (sortDesc xs)

/-! ### The five retrieval strategies (`UltimateHybridRetriever.get_relevant_documents`)

`RagAPP.py` lines 166-327 and `api.py` lines 127-227. Strategies 1, 2, 3 and 3.5
are identical in the two files (including all `k` arguments); `RagAPP.py` adds
strategy 4 (profile documents) and strategy 5 (related-actor search). Print
statements are logging only and are not modelled. -/

/-- Strategy 1: semantic search with the expanded query. -/
def strat1 (vs : VectorStore) (aty ai : Option String) (expanded : String) (st : RState) :
    RState :=
  if actorScoped aty ai then
    tryAdd st (vs.similarity_search expanded 150 [(filterKey aty, aidStr ai)])
  else
    tryAdd st (vs.similarity_search expanded 100 [])

/-- The Document Store call issued by strategy 2 (MMR). -/
def strategy2Call (vs : VectorStore) (aty ai : Option String) (q : String) :
    Except String (List Doc) :=
  if actorScoped aty ai then
    vs.max_marginal_relevance_search q 100 300 [(filterKey aty, aidStr ai)]
  else
    vs.max_marginal_relevance_search q 50 150 []

/-- Strategy 2: MMR search for diversity. -/
def strat2 (vs : VectorStore) (aty ai : Option String) (q : String) (st : RState) : RState :=
  tryAdd st (strategy2Call vs aty ai q)

/-- The keyword filter of strategy 3: keep a document if any query token longer
than 2 characters occurs in its lower-cased content, or if it is an event. -/
def keepKw (q : String) (d : Doc) : Bool :=
  let keywords := (pySplitWs (strLower q)).filter (fun w => 2 < strLen w)
  keywords.any (fun kw => containsStr kw (strLower d.content)) || isEventDoc d

/-- Strategy 3 (actor-scoped only): fetch up to 1000 actor documents with the
empty query and keep keyword/event matches. -/
def strat3 (vs : VectorStore) (aty ai : Option String) (q : String) (st : RState) : RState :=
  if actorScoped aty ai then
    tryAdd st ((vs.similarity_search "" 1000 [(filterKey aty, aidStr ai)]).map
      (fun ds => ds.filter (keepKw q)))
  else st

/-- The fuzzy ranking of strategy 3.5: score with threshold 50, keep scores
above 0, sort descending (stable), take the top 50. -/
def fuzzyTop (ts pr : String → String → ℚ) (q : String) (ds : List Doc) : List Doc :=
  let scored_docs := ds.filterMap (fun d =>
    let score := fuzzy_match_score ts pr q d.content 50
    if 0 < score then some (d, score) else none)
  ((sortDesc scored_docs).take 50).map Prod.fst

/-- Strategy 3.5 (actor-scoped, and only when fewer than 50 documents were
collected so far): refetch the actor documents and add the fuzzy top 50. -/
def strat35 (vs : VectorStore) (ts pr : String → String → ℚ) (aty ai : Option String)
    (q : String) (st : RState) : RState :=
  if actorScoped aty ai && decide (st.1.length < 50) then
    tryAdd st ((vs.similarity_search "" 1000 [(filterKey aty, aidStr ai)]).map
      (fuzzyTop ts pr q))
  else st

/-- Strategy 4 (actor-scoped only, `RagAPP.py` only): fetch up to 10 profile
documents of the actor. -/
def strat4 (vs : VectorStore) (aty ai : Option String) (st : RState) : RState :=
  if actorScoped aty ai then
    tryAdd st (vs.similarity_search "" 10
      [(filterKey aty, aidStr ai), ("type", aty.getD "" ++ "_profile")])
  else st

/-- Strategy 5 (actor-scoped only, `RagAPP.py` only): broad search with the
expanded query, keeping documents carrying a `related_{actor_type}` key. -/
def strat5 (vs : VectorStore) (aty ai : Option String) (expanded : String) (st : RState) :
    RState :=
  if actorScoped aty ai then
    tryAdd st ((vs.similarity_search expanded 50 []).map
      (fun ds => ds.filter (fun d => (mget d.metadata ("related_" ++ aty.getD "")).isSome)))
  else st

/-- The accumulator state after all six strategies of `RagAPP.py`. -/
def runStrategiesR (vs : VectorStore) (ts pr : String → String → ℚ)
    (aty ai : Option String) (q : String) : RState :=
  let expanded := expand_query q
  strat5 vs aty ai expanded
    (strat4 vs aty ai
      (strat35 vs ts pr aty ai q
        (strat3 vs aty ai q
          (strat2 vs aty ai q
            (strat1 vs aty ai expanded ([], []))))))

/-- The deduplicated document list accumulated by `RagAPP.py`'s retriever. -/
def accumulatedR (vs : VectorStore) (ts pr : String → String → ℚ)
    (aty ai : Option String) (q : String) : List Doc :=
  (runStrategiesR vs ts pr aty ai q).1

/-- The accumulator state after the four strategies of `api.py`. -/
def runStrategiesA (vs : VectorStore) (ts pr : String → String → ℚ)
    (aty ai : Option String) (q : String) : RState :=
  let expanded := expand_query q
  strat35 vs ts pr aty ai q
    (strat3 vs aty ai q
      (strat2 vs aty ai q
        (strat1 vs aty ai expanded ([], []))))

/-- The deduplicated document list accumulated by `api.py`'s retriever. -/
def accumulatedA (vs : VectorStore) (ts pr : String → String → ℚ)
    (aty ai : Option String) (q : String) : List Doc :=
  (runStrategiesA vs ts pr aty ai q).1

/-- Final ordering (identical in both files): with a full actor scope, events
first then the rest, each in accumulation order; otherwise all documents sorted
by descending fuzzy score against the raw query at threshold 0. -/
def finalOrder (ts pr : String → String → ℚ) (aty ai : Option String) (q : String)
    (all_docs : List Doc) : List Doc :=
  if actorScoped aty ai then
    all_docs.filter isEventDoc ++ all_docs.filter (fun d => !(isEventDoc d))
  else
    (sortDesc (all_docs.map (fun d => (d, fuzzy_match_score ts pr q d.content 0)))).map
      Prod.fst

/-- `UltimateHybridRetriever.get_relevant_documents` of `RagAPP.py`. -/
def get_relevant_documentsR (vs : VectorStore) (ts pr : String → String → ℚ)
    (aty ai : Option String) (q : String) : List Doc :=
  finalOrder ts pr aty ai q (accumulatedR vs ts pr aty ai q)

/-- `UltimateHybridRetriever.get_relevant_documents` of `api.py`. -/
def get_relevant_documentsA (vs : VectorStore) (ts pr : String → String → ℚ)
    (aty ai : Option String) (q : String) : List Doc :=
  finalOrder ts pr aty ai q (accumulatedA vs ts pr aty ai q)

/-- The store with the MMR entry point replaced by one returning no documents. -/
def mmrStubbed (vs : VectorStore) : VectorStore :=
  { vs with max_marginal_relevance_search := fun _ _ _ _ => .ok [] }

/-! ### The FastAPI layer (`api.py` `/query`) and the CLI loop (`RagAPP.py` `main`) -/

/-- The apostrophe character, used in the fixed answer strings. -/
def apostro : String := ⟨[Char.ofNat 39]⟩

/-- The fixed no-documents answer of both layers (the CLI prints it with a
`Result:` prefix, not modelled). -/
def noDocsMsg : String := "I don" ++ apostro ++ "t know - no relevant documents found."

/-- Join document texts with blank lines (`"\n\n".join(...)`). -/
def joinNN (l : List String) : String := String.intercalate "\n\n" l

/-- The prompt template of `api.py` (lines 416-432), with `{context}` and
`{question}` substituted. -/
def promptFormatA (context question : String) : String :=
  "You are a Healthcare Data Warehouse Analyst with comprehensive access to patient records.\nAnswer using ONLY the provided context below.\nIf information is not in the context, say \"I don" ++ apostro ++ "t know\".\n\nIMPORTANT INSTRUCTIONS:\n1. The context contains multiple document chunks - read ALL of them carefully\n2. Event documents contain detailed information about specific medical events\n3. Profile documents provide summary statistics and demographics\n4. Provide specific details from events when available, not just summaries\n\nContext:\n" ++ context ++ "\n\nQuestion: " ++ question ++ "\n\nAnswer (be specific, detailed, and use information from the context):\n"

/-- The prompt template of `RagAPP.py` (lines 620-636), which differs from the
api one only in item 4 (`Provide (Docter) specific details...`, sic). -/
def promptFormatR (context question : String) : String :=
  "You are a Healthcare Data Warehouse Analyst with comprehensive access to patient records.\nAnswer using ONLY the provided context below.\nIf information is not in the context, say \"I don" ++ apostro ++ "t know\".\n\nIMPORTANT INSTRUCTIONS:\n1. The context contains multiple document chunks - read ALL of them carefully\n2. Event documents contain detailed information about specific medical events\n3. Profile documents provide summary statistics and demographics\n4. Provide (Docter) specific details from events when available, not just summaries\n\nContext:\n" ++ context ++ "\n\nQuestion: " ++ question ++ "\n\nAnswer (be specific, detailed, and use information from the context):\n"

/-- One entry of the `documents` field of a `/query` response. -/
structure DocumentInfo where
  content : String
  metadata : List (String × String)
  type : String
deriving DecidableEq

/-- The `/query` response model (`QueryResponse` of `api.py`). -/
structure QueryResponseM where
  answer : String
  actor_type : Option String
  actor_id : Option String
  num_documents_retrieved : Nat
  num_events : Nat
  documents : List DocumentInfo
deriving DecidableEq

/-- HTTP error responses raised by the endpoint. -/
inductive HttpErr where
  | e503 (detail : String) : HttpErr
  | e500 (detail : String) : HttpErr
deriving DecidableEq

/-- Build one response entry: content truncated to 500 characters, metadata,
and the `type` metadata value (default `"unknown"`). -/
def mkDocInfo (d : Doc) : DocumentInfo :=
  { content := strTake 500 d.content
    metadata := d.metadata
    type := (mget d.metadata "type").getD "unknown" }

/-- Model of the `POST /query` handler `query_database` (`api.py` lines 370-463).
The LLM is the oracle `llm`; the returned boolean records whether the Completion
Service was invoked. `max_results` is modelled as a natural number. A detection
exception is caught by the endpoint's `except` and surfaced as HTTP 500. -/
def query_database (vs? : Option VectorStore) (llm? : Option (String → String))
    (ts pr : String → String → ℚ) (q : String) (max_results : Nat) :
    Except HttpErr QueryResponseM × Bool :=
  match vs? with
  | none => (.error (.e503 "Database not loaded. Please build the FAISS index first."), false)
  | some vs =>
  match llm? with
  | none => (.error (.e503 "LLM not connected. Check your GROQ_API_KEY."), false)
  | some llm =>
  match detect_query_actorA q with
  | .error _ => (.error (.e500 "Query failed"), false)
  | .ok (aty, ai) =>
    let retrieved := get_relevant_documentsA vs ts pr aty ai q
    if retrieved.length = 0 then
      (.ok { answer := noDocsMsg, actor_type := aty, actor_id := ai,
             num_documents_retrieved := 0, num_events := 0, documents := [] }, false)
    else
      let context := joinNN ((retrieved.take max_results).map (fun d => d.content))
      let response := llm (promptFormatA context q)
      let documents_info := (retrieved.take 20).map mkDocInfo
      let num_events := ((retrieved.take max_results).filter isEventDoc).length
      (.ok { answer := response, actor_type := aty, actor_id := ai,
             num_documents_retrieved := retrieved.length,
             num_events := num_events, documents := documents_info }, true)

/-- Model of one query iteration of `RagAPP.py`'s `main` loop (lines 684-710):
detect, retrieve, answer `noDocsMsg` without invoking the LLM when retrieval is
empty, otherwise prompt the LLM with the top-100 document context. The boolean
records whether the LLM was invoked. -/
def cli_answer (vs : VectorStore) (llm : String → String) (ts pr : String → String → ℚ)
    (q : String) : Except PyErr (String × Bool) :=
  (detect_query_actorR q).map (fun p =>
    let retrieved := get_relevant_documentsR vs ts pr p.1 p.2 q
    if retrieved.length = 0 then (noDocsMsg, false)
    else
      let context := joinNN ((retrieved.take 100).map (fun d => d.content))
      (llm (promptFormatR context q), true))

/-! ### Concrete fixtures used to instantiate the theorems -/

/-- A store that always returns no documents. -/
def emptyStore : VectorStore := ⟨fun _ _ _ => .ok [], fun _ _ _ _ => .ok []⟩

/-- A fuzzy oracle that always answers 0. -/
def zeroOracle : String → String → ℚ := fun _ _ => 0

/-- A store whose MMR entry point (strategy 2) raises while similarity search
succeeds with no documents. -/
def errStore : VectorStore := ⟨fun _ _ _ => .ok [], fun _ _ _ _ => .error "boom"⟩

/-- A sample event document. -/
def oneDoc : Doc := ⟨"event alpha", [("type", "event")]⟩

/-- A store whose similarity search returns exactly `oneDoc`. -/
def oneDocStore : VectorStore := ⟨fun _ _ _ => .ok [oneDoc], fun _ _ _ _ => .ok []⟩

/-- A completion oracle with a fixed answer. -/
def constLLM : String → String := fun _ => "answer"

/-- A fuzzy oracle that always answers 100 (as the fuzzywuzzy ratios do on
identical inputs). -/
def hundredOracle : String → String → ℚ := fun _ _ => 100

/-! ### Lemmas: digits, parsing, and `normalize_id` -/

theorem not_ws_of_digit {c : Char} (h : isDigitC c = true) : isWsC c = false := by
  simp only [isDigitC, Bool.and_eq_true, decide_eq_true_eq] at h
  simp only [isWsC, Bool.or_eq_false_iff, decide_eq_false_iff_not]
  omega

theorem dval_digCh {d : Nat} (h : d < 10) : dval (digCh d) = d := by
  interval_cases d <;> rfl

theorem isDigitC_digCh {d : Nat} (h : d < 10) : isDigitC (digCh d) = true := by
  interval_cases d <;> rfl

theorem lowerCh_of_digit {c : Char} (h : isDigitC c = true) : lowerCh c = c := by
  simp only [isDigitC, Bool.and_eq_true, decide_eq_true_eq] at h
  simp only [lowerCh, ite_eq_right_iff]
  omega

theorem natToDigitsAux_ne_nil (fuel n : Nat) : natToDigitsAux fuel n ≠ [] := by
  cases fuel with
  | zero => simp [natToDigitsAux]
  | succ f =>
    rw [natToDigitsAux]
    split
    · simp
    · simp

theorem natToDigits_ne_nil (n : Nat) : natToDigits n ≠ [] := natToDigitsAux_ne_nil n n

theorem natToDigitsAux_digits (fuel : Nat) :
    ∀ n, n ≤ fuel → ∀ c ∈ natToDigitsAux fuel n, isDigitC c = true := by
  induction fuel with
  | zero =>
    intro n hn c hc
    simp only [natToDigitsAux, List.mem_singleton] at hc
    subst hc
    exact isDigitC_digCh (by omega)
  | succ f ih =>
    intro n hn c hc
    rw [natToDigitsAux] at hc
    split at hc
    · next h =>
      simp only [List.mem_singleton] at hc
      subst hc
      exact isDigitC_digCh h
    · next h =>
      rcases List.mem_append.mp hc with h1 | h2
      · exact ih (n / 10) (by omega) c h1
      · simp only [List.mem_singleton] at h2
        subst h2
        exact isDigitC_digCh (Nat.mod_lt _ (by omega))

theorem natToDigits_digits (n : Nat) : ∀ c ∈ natToDigits n, isDigitC c = true :=
  natToDigitsAux_digits n n (le_refl n)

theorem natToDigitsAux_foldl (fuel : Nat) :
    ∀ n, n ≤ fuel → (natToDigitsAux fuel n).foldl (fun a c => a * 10 + dval c) 0 = n := by
  induction fuel with
  | zero =>
    intro n hn
    have : n = 0 := by omega
    subst this
    simp [natToDigitsAux, dval_digCh]
  | succ f ih =>
    intro n hn
    rw [natToDigitsAux]
    split
    · next h =>
      simp [dval_digCh h]
    · next h =>
      rw [List.foldl_append]
      rw [ih (n / 10) (by omega)]
      simp only [List.foldl_cons, List.foldl_nil]
      rw [dval_digCh (Nat.mod_lt _ (by omega))]
      omega

theorem natToDigits_foldl (n : Nat) :
    (natToDigits n).foldl (fun a c => a * 10 + dval c) 0 = n :=
  natToDigitsAux_foldl n n (le_refl n)

theorem digRunAux_all_digits (l : List Char) (hd : ∀ c ∈ l, isDigitC c = true) :
    ∀ acc cnt, digRunAux l acc cnt =
      (l.foldl (fun a c => a * 10 + dval c) acc, cnt + l.length, []) := by
  induction l with
  | nil => intro acc cnt; rfl
  | cons c cs ih =>
    intro acc cnt
    have hc : isDigitC c = true := hd c (List.mem_cons_self _ _)
    rw [digRunAux.eq_def]
    simp only [hc, if_true]
    rw [ih (fun x hx => hd x (List.mem_cons_of_mem _ hx))]
    simp only [List.foldl_cons, List.length_cons, Prod.mk.injEq]
    refine ⟨by trivial, by omega, by trivial⟩

theorem digRun_all_digits (l : List Char) (hne : l ≠ []) (hd : ∀ c ∈ l, isDigitC c = true) :
    digRun l = some (l.foldl (fun a c => a * 10 + dval c) 0, l.length, []) := by
  cases l with
  | nil => exact absurd rfl hne
  | cons c cs =>
    have hc : isDigitC c = true := hd c (List.mem_cons_self _ _)
    simp only [digRun, hc, if_true]
    rw [digRunAux_all_digits _ hd]
    simp only [Option.some.injEq, Prod.mk.injEq, Nat.zero_add]

theorem parseMantExp_all_digits (l : List Char) (hne : l ≠ []) (hd : ∀ c ∈ l, isDigitC c = true) :
    parseMantExp l = some ((l.foldl (fun a c => a * 10 + dval c) 0 : ℕ) : ℚ) := by
  have hnum : parseNumber l =
      some (((l.foldl (fun a c => a * 10 + dval c) 0 : ℕ) : ℚ), ([] : List Char)) := by
    rw [parseNumber.eq_def, digRun_all_digits l hne hd]
  rw [parseMantExp, hnum]

theorem dropWhile_eq_self_of_not (p : Char → Bool) (l : List Char)
    (h : ∀ c ∈ l, p c = false) : l.dropWhile p = l := by
  cases l with
  | nil => rfl
  | cons c cs =>
    rw [List.dropWhile_cons]
    rw [h c (List.mem_cons_self _ _)]
    simp

theorem trimWs_eq_self (l : List Char) (h : ∀ c ∈ l, isWsC c = false) : trimWs l = l := by
  rw [trimWs]
  rw [dropWhile_eq_self_of_not _ _ h]
  rw [dropWhile_eq_self_of_not _ _ (fun c hc => h c (List.mem_reverse.mp hc))]
  exact List.reverse_reverse l

theorem mkFin_fin (q : ℚ) (h1 : q < qBig) (h2 : -qBig < q) : mkFin q = .fin q h1 h2 := by
  rw [mkFin, dif_pos h1, dif_pos h2]

theorem qBig_pos : (0 : ℚ) < qBig := by
  rw [qBig]
  positivity

/-- Helper facts about a `natToDigits` list used when re-parsing `intStr n`. -/
theorem natToDigits_head_digit (n : Nat) :
    ∃ c cs, natToDigits n = c :: cs ∧ isDigitC c = true := by
  rcases h : natToDigits n with _ | ⟨c, cs⟩
  · exact absurd h (natToDigits_ne_nil n)
  · exact ⟨c, cs, rfl, natToDigits_digits n c (h ▸ List.mem_cons_self _ _)⟩

theorem digits_ne_special (l : List Char) (hd : ∀ c ∈ l, isDigitC c = true) :
    l ≠ infinityL ∧ l ≠ infL ∧ l ≠ nanL := by
  refine ⟨?_, ?_, ?_⟩ <;> intro h <;> subst h
  · have := hd 'i' (by simp [infinityL])
    simp [isDigitC] at this
  · have := hd 'i' (by simp [infL])
    simp [isDigitC] at this
  · have := hd 'n' (by simp [nanL])
    simp [isDigitC] at this

theorem splitSign_digit_head (c : Char) (cs : List Char) (hc : isDigitC c = true) :
    splitSign (c :: cs) = (false, c :: cs) := by
  have h1 : ¬ (c = '-') := by
    intro h; subst h; simp [isDigitC] at hc
  have h2 : ¬ (c = '+') := by
    intro h; subst h; simp [isDigitC] at hc
  rw [splitSign, if_neg h1, if_neg h2]

theorem pyFloatBody_digits (l : List Char) (hne : l ≠ []) (hd : ∀ c ∈ l, isDigitC c = true) :
    ∀ neg, pyFloatBody neg l =
      some (mkFin (if neg then -((l.foldl (fun a c => a * 10 + dval c) 0 : ℕ) : ℚ)
                   else ((l.foldl (fun a c => a * 10 + dval c) 0 : ℕ) : ℚ))) := by
  intro neg
  obtain ⟨hne1, hne2, hne3⟩ := digits_ne_special l hd
  rw [pyFloatBody, if_neg (by simp [hne1, hne2]), if_neg hne3,
    parseMantExp_all_digits l hne hd]

theorem pyFloatCore_natDigits (m : Nat) :
    pyFloatCore (natToDigits m) = some (mkFin (m : ℚ)) := by
  have hd := natToDigits_digits m
  obtain ⟨c, cs, hcons, hc⟩ := natToDigits_head_digit m
  have hsplit : splitSign (natToDigits m) = (false, natToDigits m) := by
    rw [hcons]; exact splitSign_digit_head c cs hc
  rw [pyFloatCore, hsplit]
  rw [pyFloatBody_digits _ (natToDigits_ne_nil m) hd]
  rw [natToDigits_foldl]
  simp

theorem pyFloatCore_negDigits (m : Nat) :
    pyFloatCore ('-' :: natToDigits m) = some (mkFin (-(m : ℚ))) := by
  have hd := natToDigits_digits m
  have hsplit : splitSign ('-' :: natToDigits m) = (true, natToDigits m) := by
    rw [splitSign]; simp
  rw [pyFloatCore, hsplit]
  rw [pyFloatBody_digits _ (natToDigits_ne_nil m) hd]
  rw [natToDigits_foldl]
  simp

theorem map_lowerCh_digits (l : List Char) (hd : ∀ c ∈ l, isDigitC c = true) :
    l.map lowerCh = l := by
  rw [List.map_congr_left (fun c hc => lowerCh_of_digit (hd c hc))]
  exact List.map_id' l

theorem pyFloatOfString_intStr (n : ℤ) :
    pyFloatOfString (intStr n) = some (mkFin (n : ℚ)) := by
  by_cases hn : n < 0
  · have hd := natToDigits_digits n.natAbs
    have hmap : ('-' :: natToDigits n.natAbs).map lowerCh = '-' :: natToDigits n.natAbs := by
      simp only [List.map_cons]
      rw [map_lowerCh_digits _ hd]
      rfl
    have htrim : trimWs ('-' :: natToDigits n.natAbs) = '-' :: natToDigits n.natAbs := by
      apply trimWs_eq_self
      intro c hc
      rcases List.mem_cons.mp hc with h | h
      · subst h; rfl
      · exact not_ws_of_digit (hd c h)
    have hdata : (intStr n).data = '-' :: natToDigits n.natAbs := by
      rw [intStr, if_pos hn]
    rw [pyFloatOfString, hdata, hmap, htrim, pyFloatCore_negDigits]
    have key : ((n.natAbs : ℕ) : ℚ) = -(n : ℚ) := by
      have h1 : ((n.natAbs : ℤ) : ℚ) = ((-n : ℤ) : ℚ) := by
        rw [Int.ofNat_natAbs_of_nonpos (le_of_lt hn)]
      rw [Int.cast_natCast, Int.cast_neg] at h1
      exact h1
    rw [key, neg_neg]
  · have hd := natToDigits_digits n.natAbs
    have htrim : trimWs (natToDigits n.natAbs) = natToDigits n.natAbs :=
      trimWs_eq_self _ (fun c hc => not_ws_of_digit (hd c hc))
    have hdata : (intStr n).data = natToDigits n.natAbs := by
      rw [intStr, if_neg hn]
    rw [pyFloatOfString, hdata, map_lowerCh_digits _ hd, htrim, pyFloatCore_natDigits]
    have key : ((n.natAbs : ℕ) : ℚ) = (n : ℚ) := by
      have h1 : ((n.natAbs : ℤ) : ℚ) = (n : ℚ) := by
        rw [Int.natAbs_of_nonneg (by omega)]
      rw [Int.cast_natCast] at h1
      exact h1
    rw [key]

theorem truncQ_intCast (n : ℤ) : truncQ ((n : ℤ) : ℚ) = n := by
  rw [truncQ]
  split
  · exact Int.floor_intCast n
  · exact Int.ceil_intCast n

theorem truncQ_bounds {q : ℚ} (h1 : q < qBig) (h2 : -qBig < q) :
    ((truncQ q : ℤ) : ℚ) < qBig ∧ -qBig < ((truncQ q : ℤ) : ℚ) := by
  rw [truncQ]
  split
  · next h0 =>
    constructor
    · exact lt_of_le_of_lt (Int.floor_le q) h1
    · have : (0 : ℚ) ≤ ((Int.floor q : ℤ) : ℚ) := by
        have := Int.floor_nonneg.mpr h0
        exact_mod_cast this
      linarith [qBig_pos]
  · next h0 =>
    constructor
    · have hle : q ≤ 0 := le_of_not_le fun hc => h0 hc
      have hc0 : Int.ceil q ≤ (0 : ℤ) := Int.ceil_le.mpr (by exact_mod_cast hle)
      have : ((Int.ceil q : ℤ) : ℚ) ≤ 0 := by exact_mod_cast hc0
      linarith [qBig_pos]
    · have := Int.le_ceil q
      linarith

/-- Re-normalizing one of `normalize_id`'s integer-string outputs is the identity. -/
theorem normalize_id_intStr (n : ℤ) (h1 : ((n : ℤ) : ℚ) < qBig) (h2 : -qBig < ((n : ℤ) : ℚ)) :
    normalize_id (.str (intStr n)) = .ok (intStr n) := by
  have hparse : pyFloatOf (.str (intStr n)) = .ok (.fin (n : ℚ) h1 h2) := by
    rw [pyFloatOf, pyFloatOfString_intStr, mkFin_fin _ h1 h2]
  have hbody : tryBody (.str (intStr n)) = .ok (intStr n) := by
    have hna : pyIsNa (.str (intStr n)) = false := rfl
    rw [tryBody, hna, hparse]
    rw [if_neg (by simp)]
    exact congrArg Except.ok (congrArg intStr (truncQ_intCast n))
  rw [normalize_id, hbody]

/-! Case lemmas describing `normalize_id` on each branch of its body. -/

theorem normalize_id_na (v : PyVal) (hna : pyIsNa v = true) : normalize_id v = .ok "0" := by
  have hbody : tryBody v = .ok "0" := by rw [tryBody, hna]; simp
  rw [normalize_id, hbody]

theorem normalize_id_fin (v : PyVal) (q : ℚ) (h1 : q < qBig) (h2 : -qBig < q)
    (hna : pyIsNa v = false) (hf : pyFloatOf v = .ok (.fin q h1 h2)) :
    normalize_id v = .ok (intStr (truncQ q)) := by
  have hbody : tryBody v = .ok (intStr (truncQ q)) := by
    rw [tryBody, hna, hf]
    simp [pyIntOfFloat]
  rw [normalize_id, hbody]

theorem normalize_id_parseFail (v : PyVal) (hna : pyIsNa v = false)
    (hf : pyFloatOf v = .error .valueError) : normalize_id v = .ok (pyStr v) := by
  have hbody : tryBody v = .error .valueError := by
    rw [tryBody, hna, hf]
    simp
  rw [normalize_id, hbody]

theorem normalize_id_typeFail (v : PyVal) (hna : pyIsNa v = false)
    (hf : pyFloatOf v = .error .typeError) : normalize_id v = .ok (pyStr v) := by
  have hbody : tryBody v = .error .typeError := by
    rw [tryBody, hna, hf]
    simp
  rw [normalize_id, hbody]

theorem normalize_id_nanFloat (v : PyVal) (hna : pyIsNa v = false)
    (hf : pyFloatOf v = .ok .nan) : normalize_id v = .ok (pyStr v) := by
  have hbody : tryBody v = .error .valueError := by
    rw [tryBody, hna, hf]
    simp [pyIntOfFloat]
  rw [normalize_id, hbody]

theorem normalize_id_infFloat (v : PyVal) (hna : pyIsNa v = false)
    (hf : pyFloatOf v = .ok .inf ∨ pyFloatOf v = .ok .neginf) :
    normalize_id v = .error .overflowError := by
  have hbody : tryBody v = .error .overflowError := by
    rcases hf with hf | hf <;> rw [tryBody, hna, hf] <;> simp [pyIntOfFloat]
  rw [normalize_id, hbody]

theorem normalize_id_floatOverflow (v : PyVal) (hna : pyIsNa v = false)
    (hf : pyFloatOf v = .error .overflowError) :
    normalize_id v = .error .overflowError := by
  have hbody : tryBody v = .error .overflowError := by
    rw [tryBody, hna, hf]
    simp
  rw [normalize_id, hbody]

/-- Normalizing a finite-parse string twice is the same as once. -/
theorem normalize_id_str_idem (s : String) :
    (normalize_id (.str s)).bind (fun t => normalize_id (.str t)) = normalize_id (.str s) := by
  have hna : pyIsNa (.str s) = false := rfl
  rcases hp : pyFloatOfString s with _ | f
  · have hf : pyFloatOf (.str s) = .error .valueError := by rw [pyFloatOf, hp]
    have h1 := normalize_id_parseFail _ hna hf
    rw [h1]
    exact h1
  · cases f with
    | nan =>
      have hf : pyFloatOf (.str s) = .ok .nan := by rw [pyFloatOf, hp]
      have h1 := normalize_id_nanFloat _ hna hf
      rw [h1]
      exact h1
    | inf =>
      have hf : pyFloatOf (.str s) = .ok .inf := by rw [pyFloatOf, hp]
      rw [normalize_id_infFloat _ hna (Or.inl hf)]
      rfl
    | neginf =>
      have hf : pyFloatOf (.str s) = .ok .neginf := by rw [pyFloatOf, hp]
      rw [normalize_id_infFloat _ hna (Or.inr hf)]
      rfl
    | fin q h1 h2 =>
      have hf : pyFloatOf (.str s) = .ok (.fin q h1 h2) := by rw [pyFloatOf, hp]
      rw [normalize_id_fin _ q h1 h2 hna hf]
      obtain ⟨hb1, hb2⟩ := truncQ_bounds h1 h2
      exact normalize_id_intStr (truncQ q) hb1 hb2

/-- C5: `normalize_id` is idempotent: for every string, numeric, or missing input
`x`, `normalize_id (normalize_id x)` equals `normalize_id x` (composition in the
exception monad, matching the Python expression); moreover `normalize_id 3.0`,
`normalize_id "3"` and `normalize_id 3` all equal the string `"3"`. -/
theorem c5_normalize_id_idempotent :
    (∀ v : PyVal, (normalize_id v).bind (fun s => normalize_id (.str s)) = normalize_id v) ∧
    normalize_id (.float (mkFin 3)) = .ok "3" ∧
    normalize_id (.str "3") = .ok "3" ∧
    normalize_id (.int 3) = .ok "3" := by
  refine ⟨?_, by decide, by decide, by decide⟩
  intro v
  cases v with
  | na =>
    rw [normalize_id_na .na rfl]
    exact (by decide : normalize_id (.str "0") = .ok "0")
  | int n =>
    by_cases h1 : ((n : ℚ)) < qBig
    · by_cases h2 : -qBig < ((n : ℚ))
      · have hf : pyFloatOf (.int n) = .ok (.fin n h1 h2) := by
          rw [pyFloatOf, dif_pos h1, dif_pos h2]
        rw [normalize_id_fin (.int n) _ h1 h2 rfl hf, truncQ_intCast]
        exact normalize_id_intStr n h1 h2
      · have hf : pyFloatOf (.int n) = .error .overflowError := by
          rw [pyFloatOf, dif_pos h1, dif_neg h2]
        rw [normalize_id_floatOverflow (.int n) rfl hf]
        rfl
    · have hf : pyFloatOf (.int n) = .error .overflowError := by
        rw [pyFloatOf, dif_neg h1]
      rw [normalize_id_floatOverflow (.int n) rfl hf]
      rfl
  | float f =>
    cases f with
    | nan =>
      rw [normalize_id_na (.float .nan) rfl]
      exact (by decide : normalize_id (.str "0") = .ok "0")
    | inf =>
      rw [normalize_id_infFloat (.float .inf) rfl (Or.inl rfl)]
      rfl
    | neginf =>
      rw [normalize_id_infFloat (.float .neginf) rfl (Or.inr rfl)]
      rfl
    | fin q h1 h2 =>
      rw [normalize_id_fin (.float (.fin q h1 h2)) q h1 h2 rfl rfl]
      obtain ⟨hb1, hb2⟩ := truncQ_bounds h1 h2
      exact normalize_id_intStr (truncQ q) hb1 hb2
  | str s => exact normalize_id_str_idem s

/-- C6 counterexample: `normalize_id "inf"` raises OverflowError (only ValueError
and TypeError are caught), so `normalize_id` is not total. -/
theorem c6_cex_normalize_id_inf_raises :
    normalize_id (.str "inf") = .error .overflowError ∧ normalize_id (.str "inf") ≠ .ok "inf" := by
  refine ⟨by decide, by decide⟩

/-- C6 (amended): `normalize_id` returns `"0"` on missing/NA values, the decimal
string of the truncated float interpretation when that interpretation is finite,
and `str(value)` unchanged when the interpretation fails with ValueError/TypeError
or yields NaN; however it is not total: when the float interpretation is infinite
(literal `inf` spellings or overflowing magnitudes), the resulting OverflowError
is not caught and propagates. -/
theorem c6_normalize_id_total_amended : ∀ v : PyVal,
    (pyIsNa v = true → normalize_id v = .ok "0") ∧
    (∀ q h1 h2, pyIsNa v = false → pyFloatOf v = .ok (.fin q h1 h2) →
        normalize_id v = .ok (intStr (truncQ q))) ∧
    (pyIsNa v = false →
        pyFloatOf v = .error .valueError ∨ pyFloatOf v = .error .typeError →
        normalize_id v = .ok (pyStr v)) ∧
    (pyIsNa v = false → pyFloatOf v = .ok .nan → normalize_id v = .ok (pyStr v)) ∧
    (∀ e, normalize_id v = .error e → e = .overflowError ∧
        (pyFloatOf v = .ok .inf ∨ pyFloatOf v = .ok .neginf ∨
          pyFloatOf v = .error .overflowError)) := by
  intro v
  refine ⟨normalize_id_na v, fun q h1 h2 => normalize_id_fin v q h1 h2, ?_, normalize_id_nanFloat v, ?_⟩
  · intro hna hf
    rcases hf with hf | hf
    · exact normalize_id_parseFail v hna hf
    · exact normalize_id_typeFail v hna hf
  · intro e he
    by_cases hna : pyIsNa v = true
    · rw [normalize_id_na v hna] at he
      exact absurd he (by simp)
    · have hna' : pyIsNa v = false := by
        revert hna
        cases pyIsNa v <;> simp
      rcases hfv : pyFloatOf v with e2 | f
      · cases e2 with
        | valueError =>
          rw [normalize_id_parseFail v hna' hfv] at he
          exact absurd he (by simp)
        | typeError =>
          rw [normalize_id_typeFail v hna' hfv] at he
          exact absurd he (by simp)
        | overflowError =>
          rw [normalize_id_floatOverflow v hna' hfv] at he
          refine ⟨?_, Or.inr (Or.inr rfl)⟩
          injection he with he2
          exact he2.symm
      · cases f with
        | nan =>
          rw [normalize_id_nanFloat v hna' hfv] at he
          exact absurd he (by simp)
        | inf =>
          rw [normalize_id_infFloat v hna' (Or.inl hfv)] at he
          refine ⟨?_, Or.inl rfl⟩
          injection he with he2
          exact he2.symm
        | neginf =>
          rw [normalize_id_infFloat v hna' (Or.inr hfv)] at he
          refine ⟨?_, Or.inr (Or.inl rfl)⟩
          injection he with he2
          exact he2.symm
        | fin q h1 h2 =>
          rw [normalize_id_fin v q h1 h2 hna' hfv] at he
          exact absurd he (by simp)

/-- C6 witness: the amended theorem applied at the concrete inputs `None`
(missing) and the unparsable string `"abc"`. -/
theorem c6_witness :
    normalize_id .na = .ok "0" ∧ normalize_id (.str "abc") = .ok "abc" := by
  constructor
  · exact (c6_normalize_id_total_amended .na).1 rfl
  · exact (c6_normalize_id_total_amended (.str "abc")).2.2.1 rfl
      (Or.inl (by rw [pyFloatOf, show pyFloatOfString "abc" = none from rfl]))

/-! ### Lemmas: regex search and actor detection -/

/-- If a pattern matches at some position, `reSearch` (leftmost search) succeeds. -/
theorem reSearch_isSome_of_matchToks (p : List RTok) :
    ∀ (l1 s : List Char), (matchToks p s).isSome = true → (reSearch p (l1 ++ s)).isSome = true := by
  intro l1
  induction l1 with
  | nil =>
    intro s hs
    cases s with
    | nil => exact hs
    | cons c r =>
      rw [List.nil_append, reSearch]
      rcases hm : matchToks p (c :: r) with _ | ds
      · rw [hm] at hs
        simp at hs
      · simp
  | cons a l1' ih =>
    intro s hs
    rw [List.cons_append, reSearch]
    rcases hm : matchToks p (a :: (l1' ++ s)) with _ | ds
    · exact ih s hs
    · simp

/-- The first pattern `patient\s*(\d+)` matches at the head of any text that
starts with `patient 3`. -/
theorem matchToks_patient3 (l2 : List Char) :
    (matchToks (pat1 "patient") ("patient 3".data ++ l2)).isSome = true := rfl

/-- Unfolding lemma for `firstMatch` on a nonempty pattern list. -/
theorem firstMatch_cons (p : List RTok) (ps : List (List RTok)) (s : List Char) :
    firstMatch (p :: ps) s =
      match reSearch p s with
      | some ds => some ds
      | none => firstMatch ps s := rfl

/-- A query whose lower-cased text contains `patient 3` makes the patient
pattern list fire. -/
theorem firstMatch_patient_of_contains (q : String)
    (h : containsStr "patient 3" (strLower q) = true) :
    (firstMatch patient_patternsR (strLower q).data).isSome = true ∧
    (firstMatch patient_patternsA (strLower q).data).isSome = true := by
  have hinf : "patient 3".data <:+: (strLower q).data := by
    have := of_decide_eq_true h
    exact this
  obtain ⟨s, t, hst⟩ := hinf
  have hsearch : (reSearch (pat1 "patient") (strLower q).data).isSome = true := by
    rw [← hst, List.append_assoc]
    exact reSearch_isSome_of_matchToks _ s ("patient 3".data ++ t) (matchToks_patient3 t)
  obtain ⟨ds, hds⟩ := Option.isSome_iff_exists.mp hsearch
  constructor
  · have : firstMatch patient_patternsR (strLower q).data = some ds := by
      show firstMatch (pat1 "patient" :: [pat2 "patient" "id", pat2 "patient" "number"])
        (strLower q).data = some ds
      rw [firstMatch_cons, hds]
    rw [this]
    rfl
  · have : firstMatch patient_patternsA (strLower q).data = some ds := by
      show firstMatch (pat1 "patient" :: [pat2 "patient" "id"]) (strLower q).data = some ds
      rw [firstMatch_cons, hds]
    rw [this]
    rfl

/-- When the patient patterns fire, both detectors answer with actor type
`patient` (if they return at all). -/
theorem detect_patient_of_contains (q : String) (r : Option String × Option String)
    (h : containsStr "patient 3" (strLower q) = true) :
    (detect_query_actorR q = .ok r → r.1 = some "patient") ∧
    (detect_query_actorA q = .ok r → r.1 = some "patient") := by
  obtain ⟨hR, hA⟩ := firstMatch_patient_of_contains q h
  obtain ⟨ds, hdsR⟩ := Option.isSome_iff_exists.mp hR
  obtain ⟨ds2, hdsA⟩ := Option.isSome_iff_exists.mp hA
  constructor
  · intro hok
    simp only [detect_query_actorR] at hok
    rw [hdsR] at hok
    simp only [actorHit, Except.map] at hok
    rcases hn : normalize_id (.str ⟨ds⟩) with e | i <;> rw [hn] at hok
    · simp at hok
    · simp only [Except.ok.injEq] at hok
      rw [← hok]
  · intro hok
    simp only [detect_query_actorA] at hok
    rw [hdsA] at hok
    simp only [actorHit, Except.map] at hok
    rcases hn : normalize_id (.str ⟨ds2⟩) with e | i <;> rw [hn] at hok
    · simp at hok
    · simp only [Except.ok.injEq] at hok
      rw [← hok]

/-- C4 counterexample: the query `patient 35 provider 7` contains both
`patient 3` and `provider 7` as substrings, yet both variants of
`detect_query_actor` return `(patient, "35")`, not `(patient, "3")`. -/
theorem c4_cex_detect_query_actor :
    containsStr "patient 3" (strLower "patient 35 provider 7") = true ∧
    containsStr "provider 7" (strLower "patient 35 provider 7") = true ∧
    detect_query_actorR "patient 35 provider 7" = .ok (some "patient", some "35") ∧
    detect_query_actorA "patient 35 provider 7" = .ok (some "patient", some "35") ∧
    detect_query_actorR "patient 35 provider 7" ≠ .ok (some "patient", some "3") := by
  refine ⟨by decide, by decide, by decide, by decide, by decide⟩

/-- C4 (amended): both `detect_query_actor` variants are pure functions checking
id-bearing patterns in priority order patient, provider, organization, payer;
hence every query containing `patient 3` resolves to actor type `patient`
whenever detection returns (the captured id is that of the leftmost patient
pattern match, e.g. `"35"` for `patient 35 ...`), and the query
`patient 3 and provider 7` returns exactly `(patient, "3")`. -/
theorem c4_detect_priority_amended :
    (∀ q r, containsStr "patient 3" (strLower q) = true →
      ((detect_query_actorR q = .ok r → r.1 = some "patient") ∧
       (detect_query_actorA q = .ok r → r.1 = some "patient"))) ∧
    detect_query_actorR "patient 3 and provider 7" = .ok (some "patient", some "3") ∧
    detect_query_actorA "patient 3 and provider 7" = .ok (some "patient", some "3") := by
  refine ⟨fun q r h => detect_patient_of_contains q r h, by decide, by decide⟩

/-- C4 witness: the amended theorem applied at the concrete query
`patient 3 and provider 7`. -/
theorem c4_witness :
    detect_query_actorR "patient 3 and provider 7" = .ok (some "patient", some "3") ∧
    (some "patient" : Option String) = some "patient" :=
  ⟨c4_detect_priority_amended.2.1,
    (c4_detect_priority_amended.1 "patient 3 and provider 7" (some "patient", some "3")
      (by decide)).1 c4_detect_priority_amended.2.1⟩

/-- Removing a pattern whose search fails does not change `firstMatch`. -/
theorem firstMatch_erase_mid (p : List RTok) (l : List Char) (hp : reSearch p l = none) :
    ∀ ps1 ps2, firstMatch (ps1 ++ p :: ps2) l = firstMatch (ps1 ++ ps2) l := by
  intro ps1
  induction ps1 with
  | nil =>
    intro ps2
    rw [List.nil_append, List.nil_append, firstMatch, hp]
  | cons a ps1' ih =>
    intro ps2
    rw [List.cons_append, List.cons_append, firstMatch, firstMatch]
    rw [ih ps2]

/-- C9 counterexample: on the query `facility 5` the two variants of
`detect_query_actor` disagree: `RagAPP.py` has a `facility\s*(\d+)` pattern and
returns `(organization, "5")`, while `api.py` lacks it and falls back to
`(organization, None)`. -/
theorem c9_cex_detect_variants_differ :
    detect_query_actorR "facility 5" = .ok (some "organization", some "5") ∧
    detect_query_actorA "facility 5" = .ok (some "organization", none) ∧
    detect_query_actorR "facility 5" ≠ detect_query_actorA "facility 5" := by
  refine ⟨by decide, by decide, by decide⟩

/-- C9 (amended): the two variants of `detect_query_actor` agree on every query
on which none of the extra `RagAPP.py` patterns (`patient\s+number\s*(\d+)`,
`provider\s+id\s*(\d+)`, `facility\s*(\d+)`) fires and none of the extra
`RagAPP.py` fallback keywords (`dr.`, `clinic`, `coverage`) occurs. -/
theorem c9_detect_equiv_amended (q : String)
    (h1 : reSearch (pat2 "patient" "number") (strLower q).data = none)
    (h2 : reSearch (pat2 "provider" "id") (strLower q).data = none)
    (h3 : reSearch (pat1 "facility") (strLower q).data = none)
    (h4 : containsStr "dr." (strLower q) = false)
    (h5 : containsStr "clinic" (strLower q) = false)
    (h6 : containsStr "coverage" (strLower q) = false) :
    detect_query_actorR q = detect_query_actorA q := by
  have hpat : firstMatch patient_patternsR (strLower q).data =
      firstMatch patient_patternsA (strLower q).data := by
    have := firstMatch_erase_mid (pat2 "patient" "number") (strLower q).data h1
      [pat1 "patient", pat2 "patient" "id"] []
    simpa [patient_patternsR, patient_patternsA] using this
  have hprov : firstMatch provider_patternsR (strLower q).data =
      firstMatch provider_patternsA (strLower q).data := by
    have := firstMatch_erase_mid (pat2 "provider" "id") (strLower q).data h2
      [pat1 "provider"] [pat1 "doctor", pat1 "physician"]
    simpa [provider_patternsR, provider_patternsA] using this
  have horg : firstMatch org_patternsR (strLower q).data =
      firstMatch org_patternsA (strLower q).data := by
    have := firstMatch_erase_mid (pat1 "facility") (strLower q).data h3
      [pat1 "organization", pat1 "org", pat1 "hospital"] []
    simpa [org_patternsR, org_patternsA] using this
  have hpay : firstMatch payer_patternsR (strLower q).data =
      firstMatch payer_patternsA (strLower q).data := rfl
  rw [detect_query_actorR, detect_query_actorA]
  rw [hpat, hprov, horg, hpay, h4, h5, h6]
  simp only [Bool.or_false]

/-- C9 witness: the amended equivalence applied at the concrete query
`patient 3`, all hypotheses discharged by evaluation. -/
theorem c9_witness :
    detect_query_actorR "patient 3" = detect_query_actorA "patient 3" :=
  c9_detect_equiv_amended "patient 3" (by decide) (by decide) (by decide)
    (by decide) (by decide) (by decide)

/-! ### Lemmas: the deduplicating accumulator -/

theorem invSt_addDoc (st : RState) (d : Doc) (h : invSt st) : invSt (addDoc st d) := by
  obtain ⟨h1, h2⟩ := h
  rw [addDoc]
  split
  · exact ⟨h1, h2⟩
  · next hmem =>
    constructor
    · rw [List.map_append, h1]
      rfl
    · have hperm : List.Perm (st.2 ++ [d.content]) (d.content :: st.2) :=
        List.perm_append_singleton _ _
      rw [hperm.nodup_iff]
      exact List.Nodup.cons hmem h2

theorem invSt_addAll (ds : List Doc) : ∀ st : RState, invSt st → invSt (addAll st ds) := by
  induction ds with
  | nil => intro st h; exact h
  | cons d ds ih =>
    intro st h
    rw [addAll, List.foldl_cons]
    exact ih _ (invSt_addDoc st d h)

theorem invSt_tryAdd (st : RState) (r : Except String (List Doc)) (h : invSt st) :
    invSt (tryAdd st r) := by
  rw [tryAdd.eq_def]
  split
  · exact invSt_addAll _ _ h
  · exact h

theorem invSt_strat1 (vs : VectorStore) (aty ai : Option String) (e : String) (st : RState)
    (h : invSt st) : invSt (strat1 vs aty ai e st) := by
  rw [strat1]
  split <;> exact invSt_tryAdd _ _ h

theorem invSt_strat2 (vs : VectorStore) (aty ai : Option String) (q : String) (st : RState)
    (h : invSt st) : invSt (strat2 vs aty ai q st) :=
  invSt_tryAdd _ _ h

theorem invSt_strat3 (vs : VectorStore) (aty ai : Option String) (q : String) (st : RState)
    (h : invSt st) : invSt (strat3 vs aty ai q st) := by
  rw [strat3]
  split
  · exact invSt_tryAdd _ _ h
  · exact h

theorem invSt_strat35 (vs : VectorStore) (ts pr : String → String → ℚ)
    (aty ai : Option String) (q : String) (st : RState) (h : invSt st) :
    invSt (strat35 vs ts pr aty ai q st) := by
  rw [strat35]
  split
  · exact invSt_tryAdd _ _ h
  · exact h

theorem invSt_strat4 (vs : VectorStore) (aty ai : Option String) (st : RState)
    (h : invSt st) : invSt (strat4 vs aty ai st) := by
  rw [strat4]
  split
  · exact invSt_tryAdd _ _ h
  · exact h

theorem invSt_strat5 (vs : VectorStore) (aty ai : Option String) (e : String) (st : RState)
    (h : invSt st) : invSt (strat5 vs aty ai e st) := by
  rw [strat5]
  split
  · exact invSt_tryAdd _ _ h
  · exact h

theorem invSt_runR (vs : VectorStore) (ts pr : String → String → ℚ)
    (aty ai : Option String) (q : String) : invSt (runStrategiesR vs ts pr aty ai q) := by
  rw [runStrategiesR]
  exact invSt_strat5 _ _ _ _ _ (invSt_strat4 _ _ _ _ (invSt_strat35 _ _ _ _ _ _ _
    (invSt_strat3 _ _ _ _ _ (invSt_strat2 _ _ _ _ _ (invSt_strat1 _ _ _ _ _
      ⟨rfl, List.nodup_nil⟩)))))

theorem invSt_runA (vs : VectorStore) (ts pr : String → String → ℚ)
    (aty ai : Option String) (q : String) : invSt (runStrategiesA vs ts pr aty ai q) := by
  rw [runStrategiesA]
  exact invSt_strat35 _ _ _ _ _ _ _ (invSt_strat3 _ _ _ _ _ (invSt_strat2 _ _ _ _ _
    (invSt_strat1 _ _ _ _ _ ⟨rfl, List.nodup_nil⟩)))

theorem accumulatedR_nodup (vs : VectorStore) (ts pr : String → String → ℚ)
    (aty ai : Option String) (q : String) :
    ((accumulatedR vs ts pr aty ai q).map Doc.content).Nodup := by
  obtain ⟨h1, h2⟩ := invSt_runR vs ts pr aty ai q
  rw [accumulatedR, ← h1]
  exact h2

theorem accumulatedA_nodup (vs : VectorStore) (ts pr : String → String → ℚ)
    (aty ai : Option String) (q : String) :
    ((accumulatedA vs ts pr aty ai q).map Doc.content).Nodup := by
  obtain ⟨h1, h2⟩ := invSt_runA vs ts pr aty ai q
  rw [accumulatedA, ← h1]
  exact h2

/-! ### Lemmas: the stable descending sort -/

theorem insDesc_perm {α : Type} (x : α × ℚ) (l : List (α × ℚ)) :
    List.Perm (insDesc x l) (x :: l) := by
  induction l with
  | nil => exact List.Perm.refl _
  | cons y ys ih =>
    rw [insDesc]
    split
    · exact List.Perm.refl _
    · exact List.Perm.trans (ih.cons y) (List.Perm.swap x y ys)

theorem sortDesc_perm {α : Type} (l : List (α × ℚ)) : List.Perm (sortDesc l) l := by
  induction l with
  | nil => exact List.Perm.refl _
  | cons x xs ih =>
    rw [sortDesc]
    exact List.Perm.trans (insDesc_perm x _) (ih.cons x)

theorem insDesc_pairwise {α : Type} (x : α × ℚ) (l : List (α × ℚ))
    (h : l.Pairwise (fun a b => b.2 ≤ a.2)) :
    (insDesc x l).Pairwise (fun a b => b.2 ≤ a.2) := by
  induction l with
  | nil => exact List.pairwise_singleton _ _
  | cons y ys ih =>
    rw [insDesc]
    obtain ⟨hy, hys⟩ := List.pairwise_cons.mp h
    split
    · next hle =>
      refine List.pairwise_cons.mpr ⟨?_, h⟩
      intro b hb
      rcases List.mem_cons.mp hb with hb | hb
      · rw [hb]; exact hle
      · exact le_trans (hy b hb) hle
    · next hgt =>
      refine List.pairwise_cons.mpr ⟨?_, ih hys⟩
      intro b hb
      have hb2 := (insDesc_perm x ys).mem_iff.mp hb
      rcases List.mem_cons.mp hb2 with hb2 | hb2
      · rw [hb2]
        exact le_of_lt (lt_of_not_le hgt)
      · exact hy b hb2

theorem sortDesc_pairwise {α : Type} (l : List (α × ℚ)) :
    (sortDesc l).Pairwise (fun a b => b.2 ≤ a.2) := by
  induction l with
  | nil => exact List.Pairwise.nil
  | cons x xs ih =>
    rw [sortDesc]
    exact insDesc_pairwise x _ ih

/-! ### Lemmas: the final ordering -/

theorem finalOrder_perm (ts pr : String → String → ℚ) (aty ai : Option String)
    (q : String) (all_docs : List Doc) :
    List.Perm (finalOrder ts pr aty ai q all_docs) all_docs := by
  rw [finalOrder]
  split
  · exact List.filter_append_perm _ all_docs
  · have h1 : List.Perm
        ((sortDesc (all_docs.map (fun d => (d, fuzzy_match_score ts pr q d.content 0)))).map
          Prod.fst)
        ((all_docs.map (fun d => (d, fuzzy_match_score ts pr q d.content 0))).map Prod.fst) :=
      (sortDesc_perm _).map _
    have h2 : (all_docs.map (fun d => (d, fuzzy_match_score ts pr q d.content 0))).map
        Prod.fst = all_docs := by
      rw [List.map_map]
      exact List.map_id' all_docs
    rw [h2] at h1
    exact h1

/-- C1: for every query, actor scope, fuzzy oracle, and sequence of Document
Store responses, `get_relevant_documents` (both variants) returns each document
at most once by content identity: the returned contents are pairwise distinct. -/
theorem c1_dedup_invariant (vs : VectorStore) (ts pr : String → String → ℚ)
    (aty ai : Option String) (q : String) :
    ((get_relevant_documentsR vs ts pr aty ai q).map Doc.content).Nodup ∧
    ((get_relevant_documentsA vs ts pr aty ai q).map Doc.content).Nodup := by
  constructor
  · have hperm := (finalOrder_perm ts pr aty ai q (accumulatedR vs ts pr aty ai q)).map
      Doc.content
    rw [get_relevant_documentsR, hperm.nodup_iff]
    exact accumulatedR_nodup vs ts pr aty ai q
  · have hperm := (finalOrder_perm ts pr aty ai q (accumulatedA vs ts pr aty ai q)).map
      Doc.content
    rw [get_relevant_documentsA, hperm.nodup_iff]
    exact accumulatedA_nodup vs ts pr aty ai q

/-- In the events-then-profiles concatenation, any event following a document
implies that document is an event too: events form a prefix. -/
theorem eventsFirst_pairwise (all_docs : List Doc) :
    (all_docs.filter isEventDoc ++ all_docs.filter (fun d => !(isEventDoc d))).Pairwise
      (fun a b => isEventDoc b = true → isEventDoc a = true) := by
  rw [List.pairwise_append]
  refine ⟨?_, ?_, ?_⟩
  · apply List.pairwise_of_forall_mem_list
    intro a ha b _ _
    exact (List.mem_filter.mp ha).2
  · apply List.pairwise_of_forall_mem_list
    intro a _ b hb hevb
    have hb2 := (List.mem_filter.mp hb).2
    rw [hevb] at hb2
    exact absurd hb2 (by simp)
  · intro a ha b _ _
    exact (List.mem_filter.mp ha).2

/-- The fuzzy-reordered list is sorted by descending fuzzy score. -/
theorem fuzzyOrder_pairwise (ts pr : String → String → ℚ) (q : String) (all_docs : List Doc) :
    ((sortDesc (all_docs.map (fun d => (d, fuzzy_match_score ts pr q d.content 0)))).map
      Prod.fst).Pairwise
      (fun a b =>
        fuzzy_match_score ts pr q b.content 0 ≤ fuzzy_match_score ts pr q a.content 0) := by
  have hp := sortDesc_pairwise (all_docs.map (fun d => (d, fuzzy_match_score ts pr q d.content 0)))
  have hmem : ∀ p ∈ sortDesc (all_docs.map (fun d => (d, fuzzy_match_score ts pr q d.content 0))),
      p.2 = fuzzy_match_score ts pr q p.1.content 0 := by
    intro p hp2
    have hmem2 : p ∈ all_docs.map (fun d => (d, fuzzy_match_score ts pr q d.content 0)) :=
      (sortDesc_perm _).mem_iff.mp hp2
    obtain ⟨d, _, hde⟩ := List.mem_map.mp hmem2
    rw [← hde]
  rw [List.pairwise_map]
  refine hp.imp_of_mem ?_
  intro a b ha hb hr
  rw [← hmem a ha, ← hmem b hb]
  exact hr

/-- C2: the final ordering postcondition of `get_relevant_documents` (both
variants). With a full actor scope the result is exactly the accumulated set
partitioned events-first, each partition in accumulation order (hence every
event precedes every non-event); without a full actor scope the result is a
permutation of the accumulated set sorted by descending
`fuzzy_match_score(query, content, threshold=0)`. -/
theorem c2_final_ordering (vs : VectorStore) (ts pr : String → String → ℚ)
    (aty ai : Option String) (q : String) :
    (actorScoped aty ai = true →
      ((get_relevant_documentsR vs ts pr aty ai q =
          (accumulatedR vs ts pr aty ai q).filter isEventDoc ++
            (accumulatedR vs ts pr aty ai q).filter (fun d => !(isEventDoc d)) ∧
        (get_relevant_documentsR vs ts pr aty ai q).Pairwise
          (fun a b => isEventDoc b = true → isEventDoc a = true)) ∧
       (get_relevant_documentsA vs ts pr aty ai q =
          (accumulatedA vs ts pr aty ai q).filter isEventDoc ++
            (accumulatedA vs ts pr aty ai q).filter (fun d => !(isEventDoc d)) ∧
        (get_relevant_documentsA vs ts pr aty ai q).Pairwise
          (fun a b => isEventDoc b = true → isEventDoc a = true)))) ∧
    (actorScoped aty ai = false →
      ((List.Perm (get_relevant_documentsR vs ts pr aty ai q) (accumulatedR vs ts pr aty ai q) ∧
        (get_relevant_documentsR vs ts pr aty ai q).Pairwise
          (fun a b =>
            fuzzy_match_score ts pr q b.content 0 ≤ fuzzy_match_score ts pr q a.content 0)) ∧
       (List.Perm (get_relevant_documentsA vs ts pr aty ai q) (accumulatedA vs ts pr aty ai q) ∧
        (get_relevant_documentsA vs ts pr aty ai q).Pairwise
          (fun a b =>
            fuzzy_match_score ts pr q b.content 0 ≤
              fuzzy_match_score ts pr q a.content 0)))) := by
  constructor
  · intro hsc
    have heqR : get_relevant_documentsR vs ts pr aty ai q =
        (accumulatedR vs ts pr aty ai q).filter isEventDoc ++
          (accumulatedR vs ts pr aty ai q).filter (fun d => !(isEventDoc d)) := by
      rw [get_relevant_documentsR, finalOrder, if_pos hsc]
    have heqA : get_relevant_documentsA vs ts pr aty ai q =
        (accumulatedA vs ts pr aty ai q).filter isEventDoc ++
          (accumulatedA vs ts pr aty ai q).filter (fun d => !(isEventDoc d)) := by
      rw [get_relevant_documentsA, finalOrder, if_pos hsc]
    exact ⟨⟨heqR, heqR ▸ eventsFirst_pairwise _⟩, ⟨heqA, heqA ▸ eventsFirst_pairwise _⟩⟩
  · intro hsc
    have hscF : ¬ (actorScoped aty ai = true) := by rw [hsc]; simp
    have heqR : get_relevant_documentsR vs ts pr aty ai q =
        (sortDesc ((accumulatedR vs ts pr aty ai q).map
          (fun d => (d, fuzzy_match_score ts pr q d.content 0)))).map Prod.fst := by
      rw [get_relevant_documentsR, finalOrder, if_neg hscF]
    have heqA : get_relevant_documentsA vs ts pr aty ai q =
        (sortDesc ((accumulatedA vs ts pr aty ai q).map
          (fun d => (d, fuzzy_match_score ts pr q d.content 0)))).map Prod.fst := by
      rw [get_relevant_documentsA, finalOrder, if_neg hscF]
    refine ⟨⟨finalOrder_perm ts pr aty ai q _, ?_⟩, ⟨finalOrder_perm ts pr aty ai q _, ?_⟩⟩
    · rw [heqR]
      exact fuzzyOrder_pairwise ts pr q _
    · rw [heqA]
      exact fuzzyOrder_pairwise ts pr q _

/-- C2 witness: the ordering postcondition instantiated at a concrete scoped
query and a concrete unscoped query against the empty store. -/
theorem c2_witness :
    (get_relevant_documentsR emptyStore zeroOracle zeroOracle (some "patient") (some "3") "q" =
      (accumulatedR emptyStore zeroOracle zeroOracle (some "patient") (some "3") "q").filter
        isEventDoc ++
        (accumulatedR emptyStore zeroOracle zeroOracle (some "patient") (some "3") "q").filter
          (fun d => !(isEventDoc d))) ∧
    List.Perm (get_relevant_documentsA emptyStore zeroOracle zeroOracle none none "q")
      (accumulatedA emptyStore zeroOracle zeroOracle none none "q") :=
  ⟨(((c2_final_ordering emptyStore zeroOracle zeroOracle (some "patient") (some "3") "q").1
      rfl).1).1,
   (((c2_final_ordering emptyStore zeroOracle zeroOracle none none "q").2 rfl).2).1⟩

/-- C3: strategy isolation. If the Document Store raises during strategy 2 (the
MMR call) the retriever neither propagates the exception (it is total) nor loses
the other strategies: the result equals the run in which strategy 2 contributes
zero documents, for both variants. -/
theorem c3_strategy_isolation (vs : VectorStore) (ts pr : String → String → ℚ)
    (aty ai : Option String) (q : String) (e : String)
    (h : strategy2Call vs aty ai q = .error e) :
    get_relevant_documentsR vs ts pr aty ai q =
      get_relevant_documentsR (mmrStubbed vs) ts pr aty ai q ∧
    get_relevant_documentsA vs ts pr aty ai q =
      get_relevant_documentsA (mmrStubbed vs) ts pr aty ai q := by
  have h2 : ∀ st : RState, strat2 vs aty ai q st = st := by
    intro st
    rw [strat2, h]
    rfl
  have hstub : strategy2Call (mmrStubbed vs) aty ai q = .ok [] := by
    rw [strategy2Call]
    split <;> rfl
  have h2' : ∀ st : RState, strat2 (mmrStubbed vs) aty ai q st = st := by
    intro st
    rw [strat2, hstub]
    rfl
  have hrunR : runStrategiesR vs ts pr aty ai q =
      runStrategiesR (mmrStubbed vs) ts pr aty ai q := by
    simp only [runStrategiesR]
    rw [h2, h2']
    rfl
  have hrunA : runStrategiesA vs ts pr aty ai q =
      runStrategiesA (mmrStubbed vs) ts pr aty ai q := by
    simp only [runStrategiesA]
    rw [h2, h2']
    rfl
  constructor
  · rw [get_relevant_documentsR, get_relevant_documentsR, accumulatedR, accumulatedR, hrunR]
  · rw [get_relevant_documentsA, get_relevant_documentsA, accumulatedA, accumulatedA, hrunA]

/-- C3 witness: the isolation theorem applied to a store whose MMR entry point
raises on every call. -/
theorem c3_witness :
    get_relevant_documentsR errStore zeroOracle zeroOracle none none "q" =
      get_relevant_documentsR (mmrStubbed errStore) zeroOracle zeroOracle none none "q" ∧
    get_relevant_documentsA errStore zeroOracle zeroOracle none none "q" =
      get_relevant_documentsA (mmrStubbed errStore) zeroOracle zeroOracle none none "q" :=
  c3_strategy_isolation errStore zeroOracle zeroOracle none none "q" "boom" rfl

/-- C7: `fuzzy_match_score` returns `0.7 * token_set + 0.3 * partial` when that
combination meets the threshold and exactly 0 otherwise; given the library
guarantees (both ratios in [0,100], and 100 on identical non-empty inputs) the
result lies in [0,100] and `fuzzy_match_score q q 60 = 100`. -/
theorem c7_fuzzy_score_bounds (ts pr : String → String → ℚ) (q t : String) (th : ℚ)
    (hts : 0 ≤ ts (strLower q) (strLower t) ∧ ts (strLower q) (strLower t) ≤ 100)
    (hpr : 0 ≤ pr (strLower q) (strLower t) ∧ pr (strLower q) (strLower t) ≤ 100)
    (hrts : q ≠ "" → ts (strLower q) (strLower q) = 100)
    (hrpr : q ≠ "" → pr (strLower q) (strLower q) = 100) :
    (0 ≤ fuzzy_match_score ts pr q t th ∧ fuzzy_match_score ts pr q t th ≤ 100) ∧
    (th ≤ ts (strLower q) (strLower t) * (7 / 10) + pr (strLower q) (strLower t) * (3 / 10) →
      fuzzy_match_score ts pr q t th =
        ts (strLower q) (strLower t) * (7 / 10) + pr (strLower q) (strLower t) * (3 / 10)) ∧
    (ts (strLower q) (strLower t) * (7 / 10) + pr (strLower q) (strLower t) * (3 / 10) < th →
      fuzzy_match_score ts pr q t th = 0) ∧
    (q ≠ "" → fuzzy_match_score ts pr q q 60 = 100) := by
  obtain ⟨hts0, hts1⟩ := hts
  obtain ⟨hpr0, hpr1⟩ := hpr
  have hcomb0 : 0 ≤ ts (strLower q) (strLower t) * (7 / 10) +
      pr (strLower q) (strLower t) * (3 / 10) := by positivity
  have hcomb1 : ts (strLower q) (strLower t) * (7 / 10) +
      pr (strLower q) (strLower t) * (3 / 10) ≤ 100 := by linarith
  refine ⟨?_, ?_, ?_, ?_⟩
  · rw [fuzzy_match_score]
    split
    · exact ⟨hcomb0, hcomb1⟩
    · exact ⟨le_refl 0, by norm_num⟩
  · intro hge
    rw [fuzzy_match_score, if_pos hge]
  · intro hlt
    rw [fuzzy_match_score, if_neg (not_le.mpr hlt)]
  · intro hq
    have h100 : ts (strLower q) (strLower q) * (7 / 10) +
        pr (strLower q) (strLower q) * (3 / 10) = 100 := by
      rw [hrts hq, hrpr hq]
      norm_num
    rw [fuzzy_match_score, h100, if_pos (by norm_num)]

/-- C7 witness: the score characterisation applied to the constant-100 oracle
pair at `q = t = "a"`, threshold 60, giving score 100. -/
theorem c7_witness :
    fuzzy_match_score hundredOracle hundredOracle "a" "a" 60 = 100 :=
  (c7_fuzzy_score_bounds hundredOracle hundredOracle "a" "a" 60
    (by constructor <;> norm_num [hundredOracle])
    (by constructor <;> norm_num [hundredOracle])
    (fun _ => rfl) (fun _ => rfl)).2.2.2 (by decide)

/-- C8: whenever the retriever returns zero documents, the question-answering
layer (both the `/query` endpoint and the CLI loop) produces the fixed
no-relevant-documents answer and never invokes the Completion Service (the
invocation flag is `false`). -/
theorem c8_empty_short_circuit (vs vs2 : VectorStore) (llm llm2 : String → String)
    (ts pr : String → String → ℚ) (q : String) (mr : Nat) (aty ai aty2 ai2 : Option String)
    (hdetA : detect_query_actorA q = .ok (aty, ai))
    (hretA : get_relevant_documentsA vs ts pr aty ai q = [])
    (hdetR : detect_query_actorR q = .ok (aty2, ai2))
    (hretR : get_relevant_documentsR vs2 ts pr aty2 ai2 q = []) :
    query_database (some vs) (some llm) ts pr q mr =
      (.ok { answer := noDocsMsg, actor_type := aty, actor_id := ai,
             num_documents_retrieved := 0, num_events := 0, documents := [] }, false) ∧
    cli_answer vs2 llm2 ts pr q = .ok (noDocsMsg, false) := by
  constructor
  · simp only [query_database]
    rw [hdetA]
    simp only [hretA]
    rfl
  · rw [cli_answer, hdetR]
    simp only [Except.map]
    rw [hretR]
    rfl

/-- C8 witness: both layers evaluated against the empty store on a query with
no actor scope. -/
theorem c8_witness :
    query_database (some emptyStore) (some constLLM) zeroOracle zeroOracle "zz" 100 =
      (.ok { answer := noDocsMsg, actor_type := none, actor_id := none,
             num_documents_retrieved := 0, num_events := 0, documents := [] }, false) ∧
    cli_answer emptyStore constLLM zeroOracle zeroOracle "zz" = .ok (noDocsMsg, false) :=
  c8_empty_short_circuit emptyStore emptyStore constLLM constLLM zeroOracle zeroOracle
    "zz" 100 none none none none (by decide) (by decide) (by decide) (by decide)

/-- C10: for every successful `/query` with non-empty retrieval, the response
carries at most 20 document entries, the i-th entry's content is the 500-character
prefix of the i-th retrieved document's content, and `num_documents_retrieved`
is the full retrieval count. -/
theorem c10_response_truncation (vs : VectorStore) (llm : String → String)
    (ts pr : String → String → ℚ) (q : String) (mr : Nat) (aty ai : Option String)
    (hdet : detect_query_actorA q = .ok (aty, ai))
    (hne : get_relevant_documentsA vs ts pr aty ai q ≠ []) :
    ∃ r : QueryResponseM,
      (query_database (some vs) (some llm) ts pr q mr).1 = .ok r ∧
      r.documents.length ≤ 20 ∧
      r.num_documents_retrieved = (get_relevant_documentsA vs ts pr aty ai q).length ∧
      (∀ i : Nat, i < r.documents.length →
        ∃ d0 : Doc, (get_relevant_documentsA vs ts pr aty ai q).get? i = some d0 ∧
          (r.documents.get? i).map DocumentInfo.content = some (strTake 500 d0.content) ∧
          strLen (strTake 500 d0.content) ≤ 500 ∧
          (strTake 500 d0.content).data <+: d0.content.data) := by
  have hlen : ¬ ((get_relevant_documentsA vs ts pr aty ai q).length = 0) := by
    intro h0
    exact hne (List.eq_nil_of_length_eq_zero h0)
  have heq : (query_database (some vs) (some llm) ts pr q mr).1 =
      .ok { answer := llm (promptFormatA
              (joinNN (((get_relevant_documentsA vs ts pr aty ai q).take mr).map
                (fun d => d.content))) q)
            actor_type := aty
            actor_id := ai
            num_documents_retrieved := (get_relevant_documentsA vs ts pr aty ai q).length
            num_events := (((get_relevant_documentsA vs ts pr aty ai q).take mr).filter
              isEventDoc).length
            documents := ((get_relevant_documentsA vs ts pr aty ai q).take 20).map mkDocInfo } := by
    simp only [query_database]
    rw [hdet]
    simp only [if_neg hlen]
  refine ⟨_, heq, ?_, rfl, ?_⟩
  · rw [List.length_map, List.length_take]
    exact min_le_left _ _
  · intro i hi
    rw [List.length_map, List.length_take] at hi
    have hi20 : i < 20 := lt_of_lt_of_le hi (min_le_left _ _)
    have hiR : i < (get_relevant_documentsA vs ts pr aty ai q).length :=
      lt_of_lt_of_le hi (min_le_right _ _)
    refine ⟨(get_relevant_documentsA vs ts pr aty ai q).get ⟨i, hiR⟩,
      List.get?_eq_get hiR, ?_, ?_, ?_⟩
    · rw [List.get?_map, List.get?_take hi20, List.get?_eq_get hiR]
      rfl
    · rw [strLen, strTake]
      simp only [List.length_take]
      exact min_le_left _ _
    · rw [strTake]
      exact List.take_prefix _ _

/-- C10 witness: the truncation postcondition instantiated against a store whose
retrieval yields exactly one event document. -/
theorem c10_witness :
    ∃ r : QueryResponseM,
      (query_database (some oneDocStore) (some constLLM) zeroOracle zeroOracle "zz" 100).1 =
        .ok r ∧
      r.documents.length ≤ 20 ∧
      r.num_documents_retrieved =
        (get_relevant_documentsA oneDocStore zeroOracle zeroOracle none none "zz").length ∧
      (∀ i : Nat, i < r.documents.length →
        ∃ d0 : Doc,
          (get_relevant_documentsA oneDocStore zeroOracle zeroOracle none none "zz").get? i =
            some d0 ∧
          (r.documents.get? i).map DocumentInfo.content = some (strTake 500 d0.content) ∧
          strLen (strTake 500 d0.content) ≤ 500 ∧
          (strTake 500 d0.content).data <+: d0.content.data) :=
  c10_response_truncation oneDocStore constLLM zeroOracle zeroOracle "zz" 100 none none
    (by decide) (by decide)

end HospRAG
